import Mathlib

/-!
Shallow embedding of the congestion-visualizer core of `live_visualizer.py`:
the shared observation state, the packet ingestor (`capture_packets` loop
body), the pure congestion scorer (`calculate_congestion`) and the sampler
tick (`update_plot`, its data-mutation part; rendering calls are omitted).
Python floats are modelled as rationals; `deque(maxlen=n)` is modelled by
`appendBounded`; optional values (`None`) are modelled by `Option`.
-/

/-- Model of `collections.deque(maxlen := cap)` append: appending past
capacity drops the oldest elements from the front. -/
def appendBounded {α : Type} (cap : Nat) (xs : List α) (x : α) : List α :=
  let ys := xs ++ [x]
  if cap < ys.length then ys.drop (ys.length - cap) else ys

/-- The mutable state of `CongestionVisualizer` relevant to the metrics
pipeline: the five bounded history buffers, the shared latest observations,
the packet counter, the running maximum window size, the two configured
thresholds and the timing fields.  Buffer elements that may be `None` in
the Python code (window size, RTT, congestion score) are `Option ℚ`. -/
structure VizState where
  history_length : Nat
  congestion_threshold_rtt : ℚ
  congestion_threshold_cwnd : ℚ
  time_values : List ℚ
  cwnd_values : List (Option ℚ)
  max_cwnd : ℚ
  rtt_values : List (Option ℚ)
  throughput_values : List ℚ
  packet_count : Nat
  last_throughput_time : ℚ
  congestion_values : List (Option ℚ)
  congestion_events : List ℚ
  start_time : ℚ
  latest_cwnd : Option ℚ
  latest_rtt : Option ℚ
  deriving Repr, DecidableEq

/-- Model of `CongestionVisualizer.__init__`: both `start_time` and
`last_throughput_time` are set to the wall-clock time `t0` at construction,
`max_cwnd` starts at 1000, and a dummy `0` sample is appended to each of
the five history buffers ("Initialize with some dummy data"). -/
def initState (history_length : Nat)
    (congestion_threshold_rtt congestion_threshold_cwnd : ℚ) (t0 : ℚ) :
    VizState where
  history_length := history_length
  congestion_threshold_rtt := congestion_threshold_rtt
  congestion_threshold_cwnd := congestion_threshold_cwnd
  time_values := appendBounded history_length [] 0
  cwnd_values := appendBounded history_length [] (some 0)
  max_cwnd := 1000
  rtt_values := appendBounded history_length [] (some 0)
  throughput_values := appendBounded history_length [] 0
  packet_count := 0
  last_throughput_time := t0
  congestion_values := appendBounded history_length [] (some 0)
  congestion_events := []
  start_time := t0
  latest_cwnd := none
  latest_rtt := none

/-- Model of `CongestionVisualizer.calculate_congestion(self, rtt, cwnd)`.
The first two arguments stand for the `self.congestion_threshold_rtt` and
`self.max_cwnd` fields the method reads. -/
def calculate_congestion (congestion_threshold_rtt max_cwnd : ℚ)
    (rtt cwnd : Option ℚ) : Option ℚ :=
  match rtt, cwnd with
  | some r, some c =>
    let norm_rtt := min 1 (r / congestion_threshold_rtt)
    let norm_cwnd := if 0 < max_cwnd then 1 - min 1 (c / max_cwnd) else 0
    some ((norm_rtt + norm_cwnd) / 2)
  | _, _ => none

/-- Model of one event of `capture_packets`'s `sniff_continuously` loop
body.  `window_size_value` / `analysis_ack_rtt` are `none` when the packet
lacks the attribute (`hasattr` is false); `some none` when the attribute is
present but `int(...)` / `float(...)` raises (caught by the generic
`except`, aborting this event's processing); `some (some v)` when it
parses to `v`.  The RTT value is in seconds, as on the wire. -/
structure PacketEvent where
  window_size_value : Option (Option Int)
  analysis_ack_rtt : Option (Option ℚ)

/-- Model of the body of the `for packet in capture.sniff_continuously()`
loop in `capture_packets`: increment `packet_count`, then set
`latest_cwnd` when the window-size field is present and parses, then set
`latest_rtt` (converted to ms) when the RTT field is present and parses.
A parse exception aborts the rest of this event's processing (`continue`),
keeping the increment already performed. -/
def process_packet (st : VizState) (p : PacketEvent) : VizState :=
  let st1 := { st with packet_count := st.packet_count + 1 }
  match p.window_size_value with
  | some none => st1
  | some (some c) =>
    let st2 := { st1 with latest_cwnd := some (c : ℚ) }
    match p.analysis_ack_rtt with
    | some none => st2
    | some (some r) => { st2 with latest_rtt := some (r * 1000) }
    | none => st2
  | none =>
    match p.analysis_ack_rtt with
    | some none => st1
    | some (some r) => { st1 with latest_rtt := some (r * 1000) }
    | none => st1

/-- Model of the data-mutation part of `CongestionVisualizer.update_plot`,
called with the absolute wall-clock time `now` (`time.time()`).  Mirrors
the source order: throughput (guarded by `time_elapsed > 0`), time append,
window-size append and `max_cwnd` update, RTT append, congestion score and
event detection (against the literal `0.7` of the source). -/
def update_plot (st : VizState) (now : ℚ) : VizState :=
  let current_time := now - st.start_time
  let packets_since_last := st.packet_count
  let time_elapsed := current_time - st.last_throughput_time
  let st1 := { st with packet_count := 0 }
  let st2 :=
    if 0 < time_elapsed then
      { st1 with
        throughput_values :=
          appendBounded st1.history_length st1.throughput_values
            ((packets_since_last : ℚ) / time_elapsed)
        last_throughput_time := current_time }
    else st1
  let st3 := { st2 with
    time_values := appendBounded st2.history_length st2.time_values current_time }
  let st4 :=
    match st3.latest_cwnd with
    | some c =>
      { st3 with
        cwnd_values := appendBounded st3.history_length st3.cwnd_values (some c)
        max_cwnd := if st3.max_cwnd < c then c else st3.max_cwnd }
    | none =>
      { st3 with
        cwnd_values := appendBounded st3.history_length st3.cwnd_values none }
  let st5 :=
    match st4.latest_rtt with
    | some r =>
      { st4 with
        rtt_values := appendBounded st4.history_length st4.rtt_values (some r) }
    | none =>
      { st4 with
        rtt_values := appendBounded st4.history_length st4.rtt_values none }
  let congestion :=
    calculate_congestion st5.congestion_threshold_rtt st5.max_cwnd
      st5.latest_rtt st5.latest_cwnd
  match congestion with
  | some g =>
    { st5 with
      congestion_values :=
        appendBounded st5.history_length st5.congestion_values (some g)
      congestion_events :=
        if 7/10 < g then st5.congestion_events ++ [current_time]
        else st5.congestion_events }
  | none =>
    { st5 with
      congestion_values :=
        appendBounded st5.history_length st5.congestion_values none }

/-- A sequence of sampler ticks at the given absolute times. -/
def runTicks (st : VizState) (ts : List ℚ) : VizState :=
  ts.foldl update_plot st

/-- The value `max_cwnd` holds after one tick: updated to `latest_cwnd`
exactly when that observation is present and strictly larger. -/
def newMax (st : VizState) : ℚ :=
  match st.latest_cwnd with
  | some c => if st.max_cwnd < c then c else st.max_cwnd
  | none => st.max_cwnd

/-- Whether a congestion score triggers an event in `update_plot`
(`congestion > 0.7`, with the literal threshold of the source). -/
def eventTriggered (g : Option ℚ) : Bool :=
  match g with
  | some g => decide (7/10 < g)
  | none => false

/-- All ticks in the list have strictly positive computed elapsed time
(`time_elapsed > 0` in `update_plot`), along the run. -/
def posTicks : VizState → List ℚ → Bool
  | _, [] => true
  | st, t :: ts =>
    decide (0 < t - st.start_time - st.last_throughput_time)
      && posTicks (update_plot st t) ts

/-- Repeated ingestion of the same packet event `k` times. -/
def ingestRepeat (st : VizState) (p : PacketEvent) : Nat → VizState
  | 0 => st
  | k + 1 => process_packet (ingestRepeat st p k) p

/-- All five history buffers have length `n`. -/
def allEqLen (st : VizState) (n : Nat) : Prop :=
  st.time_values.length = n ∧ st.cwnd_values.length = n ∧
  st.rtt_values.length = n ∧ st.throughput_values.length = n ∧
  st.congestion_values.length = n

instance (st : VizState) (n : Nat) : Decidable (allEqLen st n) := by
  unfold allEqLen; infer_instance

lemma appendBounded_length {α : Type} (cap : Nat) (xs : List α) (x : α) :
    (appendBounded cap xs x).length = min (xs.length + 1) cap := by
  simp only [appendBounded]
  split <;> simp_all <;> omega

/-- Characterization of one tick as a record update, used by the
claim-level theorems. -/
lemma update_plot_eq (st : VizState) (now : ℚ) :
    update_plot st now =
      { st with
        packet_count := 0
        throughput_values :=
          if 0 < now - st.start_time - st.last_throughput_time then
            appendBounded st.history_length st.throughput_values
              ((st.packet_count : ℚ) /
                (now - st.start_time - st.last_throughput_time))
          else st.throughput_values
        last_throughput_time :=
          if 0 < now - st.start_time - st.last_throughput_time then
            now - st.start_time
          else st.last_throughput_time
        time_values :=
          appendBounded st.history_length st.time_values (now - st.start_time)
        cwnd_values :=
          appendBounded st.history_length st.cwnd_values st.latest_cwnd
        max_cwnd := newMax st
        rtt_values :=
          appendBounded st.history_length st.rtt_values st.latest_rtt
        congestion_values :=
          appendBounded st.history_length st.congestion_values
            (calculate_congestion st.congestion_threshold_rtt (newMax st)
              st.latest_rtt st.latest_cwnd)
        congestion_events :=
          if eventTriggered (calculate_congestion st.congestion_threshold_rtt
              (newMax st) st.latest_rtt st.latest_cwnd) then
            st.congestion_events ++ [now - st.start_time]
          else st.congestion_events } := by
  rcases st with ⟨H, ctr, ctc, tv, cv, mc, rv, thv, pc, ltt, gv, ge, t0, lc, lr⟩
  rcases lc with _ | c <;> rcases lr with _ | r <;>
    by_cases hpos : 0 < now - t0 - ltt <;>
    simp [update_plot, newMax, eventTriggered, calculate_congestion, hpos]

lemma update_plot_history_length (st : VizState) (now : ℚ) :
    (update_plot st now).history_length = st.history_length := by
  rw [update_plot_eq]

lemma le_newMax (st : VizState) : st.max_cwnd ≤ newMax st := by
  unfold newMax
  rcases st.latest_cwnd with _ | c
  · exact le_rfl
  · dsimp only
    split
    · exact le_of_lt (by assumption)
    · exact le_rfl

lemma runTicks_cons (st : VizState) (t : ℚ) (ts : List ℚ) :
    runTicks st (t :: ts) = runTicks (update_plot st t) ts := rfl

lemma score_eval_150_100 :
    calculate_congestion 100 1000 (some 150) (some 100) = some (19/20) := by
  have h1 : min (1:ℚ) (150/100) = 1 := min_eq_left (by norm_num)
  have h2 : min (1:ℚ) (100/1000) = 100/1000 := min_eq_right (by norm_num)
  simp only [calculate_congestion]
  norm_num [h1, h2]

lemma score_eval_50_500 :
    calculate_congestion 100 1000 (some 50) (some 500) = some (1/2) := by
  have h1 : min (1:ℚ) (50/100) = 50/100 := min_eq_right (by norm_num)
  have h2 : min (1:ℚ) (500/1000) = 500/1000 := min_eq_right (by norm_num)
  simp only [calculate_congestion]
  norm_num [h1, h2]

/-- C1: for every rtt_ms ≥ 0, window_size ≥ 0, max_window_size_seen > 0
and rtt_threshold_ms > 0, `calculate_congestion` returns a score in the
closed interval [0,1]. -/
theorem congestion_score_bounded (t m r c : ℚ) (ht : 0 < t) (hm : 0 < m)
    (hr : 0 ≤ r) (hc : 0 ≤ c) :
    ∃ g, calculate_congestion t m (some r) (some c) = some g ∧
      0 ≤ g ∧ g ≤ 1 := by
  have hg : calculate_congestion t m (some r) (some c) =
      some ((min 1 (r / t) + (1 - min 1 (c / m))) / 2) := by
    simp [calculate_congestion, hm]
  refine ⟨_, hg, ?_, ?_⟩
  · have h1 : 0 ≤ min 1 (r / t) := le_min (by norm_num) (div_nonneg hr ht.le)
    have h2 : min 1 (c / m) ≤ 1 := min_le_left _ _
    linarith
  · have h1 : min 1 (r / t) ≤ 1 := min_le_left _ _
    have h2 : 0 ≤ min 1 (c / m) := le_min (by norm_num) (div_nonneg hc hm.le)
    linarith

/-- Witness for C1 at rtt 150 ms, window 100, max 1000, threshold 100 ms. -/
theorem congestion_score_bounded_witness :
    (0:ℚ) < 100 ∧ (0:ℚ) < 1000 ∧ (0:ℚ) ≤ 150 ∧ (0:ℚ) ≤ 100 ∧
    ∃ g, calculate_congestion 100 1000 (some 150) (some 100) = some g ∧
      0 ≤ g ∧ g ≤ 1 :=
  ⟨by norm_num, by norm_num, by norm_num, by norm_num,
   congestion_score_bounded 100 1000 150 100 (by norm_num) (by norm_num)
     (by norm_num) (by norm_num)⟩

/-- C4: the scorer is undefined exactly when rtt or window size is absent;
on present inputs it returns (min(1, rtt/threshold) + norm_window)/2 with
norm_window = 1 - min(1, window/max) when max > 0 and 0 otherwise; and at
rtt 150, window 100, max 1000, threshold 100 the score is 0.95. -/
theorem scorer_formula :
    (∀ (t m : ℚ) (rtt cwnd : Option ℚ),
        calculate_congestion t m rtt cwnd = none ↔
          rtt = none ∨ cwnd = none) ∧
    (∀ t m r c : ℚ,
        calculate_congestion t m (some r) (some c) =
          some ((min 1 (r / t) +
            (if 0 < m then 1 - min 1 (c / m) else 0)) / 2)) ∧
    calculate_congestion 100 1000 (some 150) (some 100) = some (19/20) := by
  refine ⟨?_, ?_, ?_⟩
  · intro t m rtt cwnd
    rcases rtt with _ | r <;> rcases cwnd with _ | c <;>
      simp [calculate_congestion]
  · intro t m r c
    rfl
  · exact score_eval_150_100

/-- C10: with fixed positive threshold and positive max, the score is
monotone: raising rtt and lowering window size never lowers the score. -/
theorem congestion_score_monotone (t m r1 r2 c1 c2 g1 g2 : ℚ)
    (ht : 0 < t) (hm : 0 < m) (hr : r1 ≤ r2) (hc : c2 ≤ c1)
    (h1 : calculate_congestion t m (some r1) (some c1) = some g1)
    (h2 : calculate_congestion t m (some r2) (some c2) = some g2) :
    g1 ≤ g2 := by
  simp only [calculate_congestion, if_pos hm, Option.some.injEq] at h1 h2
  have e1 : min 1 (r1 / t) ≤ min 1 (r2 / t) :=
    min_le_min le_rfl (by gcongr)
  have e2 : min 1 (c2 / m) ≤ min 1 (c1 / m) :=
    min_le_min le_rfl (by gcongr)
  rw [← h1, ← h2]
  linarith

/-- Witness for C10: score(rtt 50, window 500) = 0.5 is at most
score(rtt 150, window 100) = 0.95 under threshold 100, max 1000. -/
theorem congestion_score_monotone_witness :
    (0:ℚ) < 100 ∧ (0:ℚ) < 1000 ∧ (50:ℚ) ≤ 150 ∧ (100:ℚ) ≤ 500 ∧
    calculate_congestion 100 1000 (some 50) (some 500) = some (1/2) ∧
    calculate_congestion 100 1000 (some 150) (some 100) = some (19/20) ∧
    (1/2 : ℚ) ≤ 19/20 :=
  ⟨by norm_num, by norm_num, by norm_num, by norm_num, score_eval_50_500,
   score_eval_150_100,
   congestion_score_monotone 100 1000 50 150 500 100 (1/2) (19/20)
     (by norm_num) (by norm_num) (by norm_num) (by norm_num)
     score_eval_50_500 score_eval_150_100⟩

/-- C9: a sampler tick never modifies the latest window-size and RTT
observations; it appends exactly those latest values (possibly absent) to
the window-size and RTT buffers, so quiet ticks repeat the last seen
values. -/
theorem tick_preserves_latest_observations (st : VizState) (now : ℚ) :
    (update_plot st now).latest_cwnd = st.latest_cwnd ∧
    (update_plot st now).latest_rtt = st.latest_rtt ∧
    (update_plot st now).cwnd_values =
      appendBounded st.history_length st.cwnd_values st.latest_cwnd ∧
    (update_plot st now).rtt_values =
      appendBounded st.history_length st.rtt_values st.latest_rtt := by
  rw [update_plot_eq]
  exact ⟨rfl, rfl, rfl, rfl⟩

/-- C5: one tick sets max_cwnd to `newMax` (updated exactly when the
current window observation is present and strictly larger), each tick is
non-decreasing, and max_cwnd is non-decreasing across any tick sequence. -/
theorem max_cwnd_monotone :
    (∀ (st : VizState) (now : ℚ),
        (update_plot st now).max_cwnd = newMax st ∧
        st.max_cwnd ≤ (update_plot st now).max_cwnd) ∧
    (∀ (st : VizState) (ts : List ℚ),
        st.max_cwnd ≤ (runTicks st ts).max_cwnd) := by
  have step : ∀ (st : VizState) (now : ℚ),
      (update_plot st now).max_cwnd = newMax st := by
    intro st now
    rw [update_plot_eq]
  refine ⟨fun st now => ⟨step st now, ?_⟩, ?_⟩
  · rw [step st now]
    exact le_newMax st
  · intro st ts
    induction ts generalizing st with
    | nil => exact le_rfl
    | cons t ts ih =>
      rw [runTicks_cons]
      have h1 : st.max_cwnd ≤ (update_plot st t).max_cwnd := by
        rw [step st t]
        exact le_newMax st
      exact le_trans h1 (ih (update_plot st t))

/-- C8: each ingested event increments packet_count by exactly one; the
latest window size is set only when that field is present and parses (as
an integer), the latest RTT (seconds converted to ms) only when its field
is present and parses and the window field did not abort the event; in
every other case the prior stored values are unchanged. -/
theorem ingest_event_effects (st : VizState) (p : PacketEvent) :
    (process_packet st p).packet_count = st.packet_count + 1 ∧
    (process_packet st p).latest_cwnd =
      (match p.window_size_value with
       | some (some c) => some (c : ℚ)
       | _ => st.latest_cwnd) ∧
    (process_packet st p).latest_rtt =
      (match p.window_size_value, p.analysis_ack_rtt with
       | some none, _ => st.latest_rtt
       | _, some (some r) => some (r * 1000)
       | _, _ => st.latest_rtt) ∧
    (process_packet st p).max_cwnd = st.max_cwnd := by
  rcases p with ⟨w, a⟩
  rcases w with _ | _ | c <;> rcases a with _ | _ | r <;>
    simp [process_packet]

/-- C6: on a tick whose computed elapsed time is not strictly positive, no
throughput value is appended and the last-throughput timestamp is
unchanged (the division never happens). -/
theorem zero_elapsed_skips_throughput (st : VizState) (now : ℚ)
    (h : now - st.start_time - st.last_throughput_time ≤ 0) :
    (update_plot st now).throughput_values = st.throughput_values ∧
    (update_plot st now).last_throughput_time = st.last_throughput_time := by
  rw [update_plot_eq]
  simp [not_lt.mpr h]

/-- Witness for C6: a visualizer constructed at wall-clock time 1000 whose
first tick fires at the same instant appends no throughput value. -/
theorem zero_elapsed_skips_throughput_witness :
    ((1000:ℚ) - (initState 100 100 (7/10) 1000).start_time -
        (initState 100 100 (7/10) 1000).last_throughput_time ≤ 0) ∧
    ((update_plot (initState 100 100 (7/10) 1000) 1000).throughput_values =
        (initState 100 100 (7/10) 1000).throughput_values ∧
      (update_plot (initState 100 100 (7/10) 1000) 1000).last_throughput_time =
        (initState 100 100 (7/10) 1000).last_throughput_time) :=
  ⟨by norm_num [initState],
   zero_elapsed_skips_throughput (initState 100 100 (7/10) 1000)
    1000 (by norm_num [initState])⟩

lemma tick_lens (st : VizState) (now : ℚ) (n : Nat)
    (hpos : 0 < now - st.start_time - st.last_throughput_time)
    (h : allEqLen st n) :
    allEqLen (update_plot st now) (min (n + 1) st.history_length) := by
  obtain ⟨h1, h2, h3, h4, h5⟩ := h
  rw [update_plot_eq]
  simp [allEqLen, appendBounded_length, hpos, h1, h2, h3, h4, h5]

lemma runTicks_lens (ts : List ℚ) : ∀ (st : VizState) (n : Nat),
    n ≤ st.history_length → posTicks st ts = true → allEqLen st n →
    allEqLen (runTicks st ts) (min (n + ts.length) st.history_length) := by
  induction ts with
  | nil =>
    intro st n hn _ h
    simpa [runTicks, Nat.min_eq_left hn] using h
  | cons t ts ih =>
    intro st n hn hp h
    simp only [posTicks, Bool.and_eq_true, decide_eq_true_eq] at hp
    obtain ⟨hpos, hp2⟩ := hp
    have step := tick_lens st t n hpos h
    have hH : (update_plot st t).history_length = st.history_length :=
      update_plot_history_length st t
    have hrec := ih (update_plot st t) (min (n + 1) st.history_length)
      (by rw [hH]; exact min_le_right _ _) hp2 step
    rw [hH] at hrec
    have harith : min (min (n + 1) st.history_length + ts.length)
        st.history_length = min (n + (ts.length + 1)) st.history_length := by
      omega
    rw [harith] at hrec
    rw [runTicks_cons]
    simpa using hrec

lemma ingestRepeat_empty (st : VizState) (k : Nat) :
    ingestRepeat st { window_size_value := none, analysis_ack_rtt := none } k =
      { st with packet_count := st.packet_count + k } := by
  induction k with
  | zero => rfl
  | succ k ih =>
    rw [ingestRepeat, ih]
    rfl

/-- C2 (amended): after any sequence of ticks each with strictly positive
computed elapsed time, the five history buffers have equal length, namely
one more than the number of ticks (the constructor's dummy sample) capped
at history_length; and an append at full capacity at least 1 evicts
exactly the oldest element. -/
theorem histories_aligned :
    (∀ (H : Nat) (ctr ctc t0 : ℚ) (ts : List ℚ),
        posTicks (initState H ctr ctc t0) ts = true →
        allEqLen (runTicks (initState H ctr ctc t0) ts)
          (min (ts.length + 1) H)) ∧
    (∀ (cap : Nat) (xs : List ℚ) (x : ℚ), 1 ≤ cap → xs.length = cap →
        appendBounded cap xs x = xs.tail ++ [x]) := by
  constructor
  · intro H ctr ctc t0 ts hp
    have h0 : allEqLen (initState H ctr ctc t0) (min 1 H) := by
      simp [allEqLen, initState, appendBounded_length]
    have hres := runTicks_lens ts (initState H ctr ctc t0) (min 1 H)
      (min_le_right _ _) hp h0
    rw [show (initState H ctr ctc t0).history_length = H from rfl] at hres
    have harith : min (min 1 H + ts.length) H = min (ts.length + 1) H := by
      omega
    rwa [harith] at hres
  · intro cap xs x hcap hlen
    simp only [appendBounded]
    have hlt : cap < (xs ++ [x]).length := by
      simp [hlen]
    rw [if_pos hlt]
    have hdrop : (xs ++ [x]).length - cap = 1 := by
      simp [hlen]
    rw [hdrop, List.drop_append_of_le_length (by omega)]
    simp [List.drop_one]

/-- Witness for C2 (amended): two positive-elapsed ticks with
history_length 2 leave all five buffers at length 2, and a bounded append
on a full one-element buffer keeps only the new element. -/
theorem histories_aligned_witness :
    (posTicks (initState 2 100 (7/10) 0) [1, 2] = true ∧
      allEqLen (runTicks (initState 2 100 (7/10) 0) [1, 2])
        (min ([1, 2].length + 1) 2)) ∧
    ((1:Nat) ≤ 1 ∧ ([(5:ℚ)]).length = 1 ∧
      appendBounded 1 [(5:ℚ)] 9 = ([(5:ℚ)]).tail ++ [9]) := by
  constructor
  · have hp : posTicks (initState 2 100 (7/10) 0) [1, 2] = true := by
      norm_num [posTicks, update_plot_eq, initState]
    exact ⟨hp, histories_aligned.1 2 100 (7/10) 0 [1, 2] hp⟩
  · exact ⟨le_rfl, by simp, histories_aligned.2 1 [5] 9 le_rfl (by simp)⟩

/-- Counterexample to C2 as stated: after one tick the buffers hold two
elements (the constructor's dummy sample plus the tick's sample), not one
element as "length equal to the number of ticks" would demand. -/
theorem histories_length_off_by_one :
    (runTicks (initState 100 100 (7/10) 0) [1]).time_values.length = 2 ∧
    (runTicks (initState 100 100 (7/10) 0) [1]).time_values.length ≠
      min ([(1:ℚ)].length) 100 := by
  have h : (runTicks (initState 100 100 (7/10) 0) [1]).time_values.length
      = 2 := by
    simp [runTicks, update_plot_eq, initState, appendBounded_length]
  exact ⟨h, by rw [h]; simp⟩

/-- C3 (amended): a congestion event timestamp is appended at a tick iff
that tick's score is defined and exceeds the hardcoded literal 0.7; the
configured congestion_threshold_cwnd plays no role. -/
theorem congestion_event_rule (st : VizState) (now : ℚ) :
    (update_plot st now).congestion_events =
      (if eventTriggered (calculate_congestion st.congestion_threshold_rtt
          (newMax st) st.latest_rtt st.latest_cwnd) then
        st.congestion_events ++ [now - st.start_time]
      else st.congestion_events) ∧
    (eventTriggered (calculate_congestion st.congestion_threshold_rtt
        (newMax st) st.latest_rtt st.latest_cwnd) = true ↔
      ∃ g, calculate_congestion st.congestion_threshold_rtt (newMax st)
          st.latest_rtt st.latest_cwnd = some g ∧ 7/10 < g) := by
  constructor
  · rw [update_plot_eq]
  · rcases hg : calculate_congestion st.congestion_threshold_rtt (newMax st)
        st.latest_rtt st.latest_cwnd with _ | g <;>
      simp [eventTriggered, hg]

/-- Counterexample to C3 as stated: with the configured event threshold
0.5 a tick scoring 0.6 must record an event per the claim, yet the code
compares against the literal 0.7 and records none. -/
theorem threshold_config_ignored :
    (initState 100 100 (1/2) 0).congestion_threshold_cwnd = 1/2 ∧
    (update_plot (process_packet (initState 100 100 (1/2) 0)
        { window_size_value := some (some 800),
          analysis_ack_rtt := some (some (1/10)) }) 1).congestion_values =
      [some 0, some (3/5)] ∧
    ((1:ℚ)/2 < 3/5) ∧
    (update_plot (process_packet (initState 100 100 (1/2) 0)
        { window_size_value := some (some 800),
          analysis_ack_rtt := some (some (1/10)) }) 1).congestion_events =
      [] := by
  have hsc : calculate_congestion 100 1000 (some 100) (some 800) =
      some (3/5) := by
    have h2 : min (1:ℚ) (800/1000) = 800/1000 := min_eq_right (by norm_num)
    simp only [calculate_congestion]
    norm_num [h2]
  have hst : process_packet (initState 100 100 (1/2) 0)
      { window_size_value := some (some 800),
        analysis_ack_rtt := some (some (1/10)) } =
      { initState 100 100 (1/2) 0 with
        packet_count := 1, latest_cwnd := some 800,
        latest_rtt := some 100 } := by
    simp [process_packet, initState, VizState.mk.injEq]
    norm_num
  refine ⟨rfl, ?_, by norm_num, ?_⟩
  · rw [hst, update_plot_eq]
    norm_num [initState, newMax, appendBounded, hsc]
  · rw [hst, update_plot_eq]
    norm_num [initState, newMax, eventTriggered, hsc]

/-- C7 (code bug): a visualizer constructed at wall-clock time 1000 that
ingests 250 packets and ticks half a second later appends no throughput
value (its elapsed-time computation mixes the relative current time with
the absolute construction timestamp and comes out negative), though it
does reset packet_count; started at time 0 the same scenario yields the
specified 500 packets per second. -/
theorem throughput_time_unit_bug :
    (ingestRepeat (initState 100 100 (7/10) 1000)
        { window_size_value := none, analysis_ack_rtt := none }
        250).packet_count = 250 ∧
    (update_plot (ingestRepeat (initState 100 100 (7/10) 1000)
        { window_size_value := none, analysis_ack_rtt := none } 250)
        (1000 + 1/2)).throughput_values = [0] ∧
    (update_plot (ingestRepeat (initState 100 100 (7/10) 1000)
        { window_size_value := none, analysis_ack_rtt := none } 250)
        (1000 + 1/2)).packet_count = 0 ∧
    (update_plot (ingestRepeat (initState 100 100 (7/10) 0)
        { window_size_value := none, analysis_ack_rtt := none } 250)
        (1/2)).throughput_values = [0, 500] := by
  rw [ingestRepeat_empty, ingestRepeat_empty]
  refine ⟨rfl, ?_, ?_, ?_⟩
  · rw [update_plot_eq]
    norm_num [initState, appendBounded]
  · rw [update_plot_eq]
  · rw [update_plot_eq]
    norm_num [initState, appendBounded]
